import Mathlib

/-!
Verification development for the leeforge plugins repository (tenant and ou
plugins).  The Go services are shallowly embedded as pure Lean functions over
explicit state records: relational tables become lists of row structures,
UUIDs become naturals (0 plays the role of uuid.Nil), timestamps and fresh
identifiers are drawn from a monotone counter, and every fallible operation
returns an Except value paired with the successor state.  External
collaborators (domain directory, role seeder, user lookup, event bus) are
part of the state or modelled as fault flags, mirroring the interfaces in
tenant/shared and core.DomainWriter.
-/

namespace Plugins

/-- Error sentinels of the tenant plugin (tenant/shared/errors.go), plus a
generic upstream or storage failure used where the Go code wraps an error
with fmt.Errorf. -/
inductive TErr where
  | platformDomainOnly
  | invalidTenant
  | tenantCodeExists
  | tenantNotFound
  | parentTenantInvalid
  | memberExists
  | memberNotFound
  | upstream
  deriving Repr, DecidableEq

/-- A user row as seen through shared.UserLookup (shared.UserInfo). -/
structure UserInfo where
  id : Nat
  username : String
  email : String
  deriving Repr, DecidableEq

/-- A row of the tenant table (core ent schema Tenant). -/
structure TenantRow where
  id : Nat
  code : String
  name : String
  description : String
  status : String
  ownerID : Option Nat
  parentTenantID : Option Nat
  createdAt : Nat
  deletedAt : Option Nat
  deriving Repr, DecidableEq

/-- A row of the tenant_user membership table (core ent schema TenantUser).
The status field mirrors tenantuser.Status; the service only ever writes
the value "active". -/
structure TenantUserRow where
  id : Nat
  tenantID : Nat
  userID : Nat
  role : String
  isDefault : Bool
  status : String
  createdAt : Nat
  deletedAt : Option Nat
  deriving Repr, DecidableEq

/-- A record of the external domain directory (core.ResolvedDomain),
keyed by (typeCode, key). -/
structure DomainRec where
  domainID : Nat
  typeCode : String
  key : String
  displayName : String
  deriving Repr, DecidableEq

/-- State of the tenant service together with its external collaborators:
the ent-backed tables (tenants, tenantUsers), the user directory consulted
through shared.UserLookup, the domain directory (core.DomainWriter), the
set of domain memberships held by the directory, the set of domains whose
baseline roles were seeded, and a monotone counter supplying fresh ids and
timestamps. -/
structure St where
  tenants : List TenantRow
  tenantUsers : List TenantUserRow
  users : List UserInfo
  domains : List DomainRec
  domainMembers : List (Nat × Nat)
  seededDomains : List Nat
  fresh : Nat
  deriving Repr, DecidableEq

/-- Ambient request context: the platform-domain flag checked by
requirePlatformDomain, and the acting user id from core.GetUserID. -/
structure Ctx where
  isPlatformDomain : Bool
  userID : Option Nat
  deriving Repr, DecidableEq

/-- Fault injection for the collaborator calls made during CreateTenant:
each flag makes the corresponding external or storage call return an error,
letting us reason about every failure point of the multi-step sequence. -/
structure Faults where
  ensureDomainFails : Bool
  seedRolesFails : Bool
  addDomainMembershipFails : Bool
  membershipSaveFails : Bool
  deriving Repr, DecidableEq

/-- The all-clear fault assignment: every collaborator call succeeds. -/
def noFaults : Faults :=
  { ensureDomainFails := false, seedRolesFails := false
    addDomainMembershipFails := false, membershipSaveFails := false }

/-- The parent tenant reference of a create or update request, modelling the
trimmed ParentTenantID string of the Go DTO: none is the empty string,
inl is a string that uuid.Parse accepts, inr is one treated as a code. -/
def ParentRef : Type := Option (Sum Nat String)

/-- CreateRequest DTO (tenant/tenant/dto.go). -/
structure CreateRequest where
  code : String
  name : String
  description : String
  status : String
  parentTenantID : ParentRef

/-- UpdateRequest DTO (tenant/tenant/dto.go). -/
structure UpdateRequest where
  name : String
  description : String
  status : String
  parentTenantID : ParentRef

/-- Whitespace test used by strings.TrimSpace (the ASCII whitespace
characters, which cover every string in scope here). -/
def isSpaceChar (c : Char) : Bool :=
  c == ' ' || c == '\t' || c == '\n' || c == '\r'

/-- strings.TrimSpace: drop leading and trailing whitespace.  Implemented
structurally over the character list so the kernel can evaluate it. -/
def trimSpace (s : String) : String :=
  ⟨((s.data.dropWhile isSpaceChar).reverse.dropWhile isSpaceChar).reverse⟩

/-- requirePlatformDomain: the acting context must carry the platform-domain
flag, otherwise ErrPlatformDomainOnly. -/
def requirePlatformDomain (ctx : Ctx) : Except TErr Unit :=
  if ctx.isPlatformDomain then .ok () else .error .platformDomainOnly

/-- EnsureDomain of core.DomainWriter: idempotent get-or-create of a domain
record for (typeCode, key). -/
def ensureDomain (s : St) (typeCode key displayName : String) : DomainRec × St :=
  match s.domains.find? (fun d => d.typeCode == typeCode && d.key == key) with
  | some d => (d, s)
  | none =>
      let d : DomainRec :=
        { domainID := s.fresh, typeCode := typeCode, key := key
          displayName := displayName }
      (d, { s with domains := s.domains ++ [d], fresh := s.fresh + 1 })

/-- resolveDomainIDSafe: ResolveDomain("tenant", code), returning uuid.Nil
(here 0) when the domain does not resolve. -/
def resolveDomainIDSafe (s : St) (tenantCode : String) : Nat :=
  match s.domains.find? (fun d => d.typeCode == "tenant" && d.key == tenantCode) with
  | some d => d.domainID
  | none => 0

/-- resolveParentTenantID: resolve a parent reference (by id when it parses
as a UUID, by code otherwise) among non-deleted tenants; a missing parent or
a self reference yields ErrParentTenantInvalid.  The two-or-more case of the
ent Only call surfaces as a generic storage error. -/
def resolveParentTenantID (s : St) (ref : ParentRef) (selfID : Nat) :
    Except TErr (Option Nat) :=
  match ref with
  | none => .ok none
  | some r =>
      let found := s.tenants.filter (fun t =>
        (match r with
         | .inl pid => t.id == pid
         | .inr code => t.code == code) && t.deletedAt.isNone)
      match found with
      | [] => .error .parentTenantInvalid
      | [p] =>
          if selfID != 0 && p.id == selfID then .error .parentTenantInvalid
          else .ok (some p.id)
      | _ => .error .upstream

/-- ensureMembership (non-transactional): if any row exists for the
(tenant, user) pair, an active one is left untouched and an inactive or
soft-deleted one is reactivated (delete mark cleared, status set active,
role and default flag untouched); otherwise a fresh row is inserted whose
isDefault flag is true when forceDefault is set or the user has no
non-deleted default membership anywhere.  An empty role name falls back to
the ent schema default "member". -/
def ensureMembership (s : St) (tenantID userID : Nat) (forceDefault : Bool)
    (roleName : String) : Except TErr Unit × St :=
  match s.tenantUsers.find? (fun r => r.tenantID == tenantID && r.userID == userID) with
  | some existing =>
      if existing.deletedAt.isNone && existing.status == "active" then
        (.ok (), s)
      else
        (.ok (), { s with tenantUsers := s.tenantUsers.map (fun r =>
          if r.id == existing.id then { r with deletedAt := none, status := "active" }
          else r) })
  | none =>
      let isDefault := forceDefault ||
        !(s.tenantUsers.any (fun r =>
          r.userID == userID && r.isDefault && r.deletedAt.isNone))
      let row : TenantUserRow :=
        { id := s.fresh, tenantID := tenantID, userID := userID
          role := if roleName == "" then "member" else roleName
          isDefault := isDefault, status := "active"
          createdAt := s.fresh, deletedAt := none }
      (.ok (), { s with tenantUsers := s.tenantUsers ++ [row], fresh := s.fresh + 1 })

/-- ensureMembershipTx: the transactional variant used by CreateTenant.  It
operates on the transaction view of the tenant_user table and additionally
sets the role and (when forceDefault) the default flag while reactivating an
existing row.  The membershipSaveFails fault makes the ent Save call fail. -/
def ensureMembershipTx (fl : Faults) (tus : List TenantUserRow) (fresh : Nat)
    (tenantID userID : Nat) (forceDefault : Bool) (roleName : String) :
    Except TErr (List TenantUserRow × Nat) :=
  match tus.find? (fun r => r.tenantID == tenantID && r.userID == userID) with
  | some existing =>
      if fl.membershipSaveFails then .error .upstream
      else
        .ok (tus.map (fun r =>
          if r.id == existing.id then
            { r with deletedAt := none, status := "active",
                     isDefault := if forceDefault then true else r.isDefault,
                     role := if roleName == "" then r.role else roleName }
          else r), fresh)
  | none =>
      let isDefault := forceDefault ||
        !(tus.any (fun r => r.userID == userID && r.isDefault && r.deletedAt.isNone))
      if fl.membershipSaveFails then .error .upstream
      else
        .ok (tus ++ [{ id := fresh, tenantID := tenantID, userID := userID
                       role := if roleName == "" then "member" else roleName
                       isDefault := isDefault, status := "active"
                       createdAt := fresh, deletedAt := none }], fresh + 1)

/-- CreateTenant: platform gate, validation, parent resolution, then the
multi-step unit.  The tenant insert and the owner tenant_user row live in
the ent transaction and are dropped on rollback; the calls to the domain
directory (EnsureDomain, AddMembership), and the role seeder act on shared
collaborator state immediately and survive a rollback.  The unique tenant
code constraint surfaces as ErrTenantCodeExists. -/
def createTenant (fl : Faults) (ctx : Ctx) (req : CreateRequest) (s : St) :
    Except TErr TenantRow × St :=
  match requirePlatformDomain ctx with
  | .error e => (.error e, s)
  | .ok () =>
  let code := trimSpace req.code
  let name := trimSpace req.name
  if code == "" || name == "" then (.error .invalidTenant, s)
  else
  match resolveParentTenantID s req.parentTenantID 0 with
  | .error e => (.error e, s)
  | .ok parentOpt =>
  -- Save inside the transaction; the unique index on code rejects duplicates.
  if s.tenants.any (fun t => t.code == code) then (.error .tenantCodeExists, s)
  else
  let t : TenantRow :=
    { id := s.fresh, code := code, name := name
      description := req.description
      status := if trimSpace req.status == "" then "active" else trimSpace req.status
      ownerID := ctx.userID, parentTenantID := parentOpt
      createdAt := s.fresh, deletedAt := none }
  let s0 := { s with fresh := s.fresh + 1 }
  if fl.ensureDomainFails then (.error .upstream, s0)
  else
  let (dom, s1) := ensureDomain s0 "tenant" code name
  if fl.seedRolesFails then (.error .upstream, s1)
  else
  let s2 := { s1 with seededDomains :=
    if s1.seededDomains.contains dom.domainID then s1.seededDomains
    else s1.seededDomains ++ [dom.domainID] }
  match ctx.userID with
  | some owner =>
      if fl.addDomainMembershipFails then (.error .upstream, s2)
      else
      let s3 := { s2 with domainMembers :=
        if s2.domainMembers.contains (dom.domainID, owner) then s2.domainMembers
        else s2.domainMembers ++ [(dom.domainID, owner)] }
      match ensureMembershipTx fl s3.tenantUsers s3.fresh t.id owner true "tenant_admin" with
      | .error e => (.error e, s3)
      | .ok (tus, fresh) =>
          (.ok t, { s3 with tenants := s3.tenants ++ [t]
                            tenantUsers := tus, fresh := fresh })
  | none =>
      (.ok t, { s2 with tenants := s2.tenants ++ [t] })

/-- UpdateTenant: platform gate, load by id (ent Get carries no
deleted-at filter), parent re-resolution excluding the tenant itself, then
application of the supplied non-empty fields. -/
def updateTenant (ctx : Ctx) (id : Nat) (req : UpdateRequest) (s : St) :
    Except TErr TenantRow × St :=
  match requirePlatformDomain ctx with
  | .error e => (.error e, s)
  | .ok () =>
  match s.tenants.find? (fun t => t.id == id) with
  | none => (.error .tenantNotFound, s)
  | some t =>
  match resolveParentTenantID s req.parentTenantID id with
  | .error e => (.error e, s)
  | .ok parentOpt =>
  let t' : TenantRow :=
    { t with
      parentTenantID := match parentOpt with
        | some p => some p
        | none => t.parentTenantID
      name := if req.name == "" then t.name else trimSpace req.name
      description := if req.description == "" then t.description else req.description
      status := if req.status == "" then t.status else req.status }
  (.ok t', { s with tenants := s.tenants.map (fun r => if r.id == t.id then t' else r) })

/-- The duplicate-identity conflict AddMember checks for: some other active,
non-deleted member of the tenant whose user record shares the candidate
username or email. -/
def memberConflict (s : St) (tenantID userID : Nat) (u : UserInfo) : Bool :=
  (s.tenantUsers.filter (fun r =>
      r.tenantID == tenantID && r.deletedAt.isNone && r.status == "active")).any
    (fun m =>
      !(m.userID == userID) &&
      (match s.users.find? (fun w => w.id == m.userID) with
       | some mu => mu.username == u.username || mu.email == u.email
       | none => false))

/-- AddMember: platform gate, tenant load, user lookup, duplicate-identity
conflict check among the other active members, best-effort domain
membership, then ensureMembership.  An empty role defaults to "member". -/
def addMember (ctx : Ctx) (tenantID userID : Nat) (role : String) (s : St) :
    Except TErr Unit × St :=
  match requirePlatformDomain ctx with
  | .error e => (.error e, s)
  | .ok () =>
  match s.tenants.find? (fun t => t.id == tenantID) with
  | none => (.error .tenantNotFound, s)
  | some t =>
  match s.users.find? (fun w => w.id == userID) with
  | none => (.error .upstream, s)
  | some u =>
  if memberConflict s t.id userID u then (.error .memberExists, s)
  else
  let role := if role == "" then "member" else role
  let domainID := resolveDomainIDSafe s t.code
  let s1 :=
    if domainID != 0 then
      { s with domainMembers :=
        if s.domainMembers.contains (domainID, userID) then s.domainMembers
        else s.domainMembers ++ [(domainID, userID)] }
    else s
  ensureMembership s1 t.id userID false role

/-- First active, non-deleted row in ascending created-at order: the ent
query Order(Asc(created_at)).First(), keeping the earlier row on ties. -/
def oldestFirst (l : List TenantUserRow) : Option TenantUserRow :=
  l.foldl (fun acc r =>
    match acc with
    | none => some r
    | some a => if r.createdAt < a.createdAt then some r else some a) none

/-- RemoveMember: platform gate, tenant load, load of the first non-deleted
membership row of the pair, soft delete, best-effort domain membership
removal, and, when the removed row was the default, promotion of the oldest
remaining active membership of the user across all tenants. -/
def removeMember (ctx : Ctx) (tenantID userID : Nat) (s : St) :
    Except TErr Unit × St :=
  match requirePlatformDomain ctx with
  | .error e => (.error e, s)
  | .ok () =>
  match s.tenants.find? (fun t => t.id == tenantID) with
  | none => (.error .tenantNotFound, s)
  | some t =>
  match s.tenantUsers.find? (fun r =>
      r.tenantID == t.id && r.userID == userID && r.deletedAt.isNone) with
  | none => (.error .memberNotFound, s)
  | some membership =>
  let tus1 := s.tenantUsers.map (fun r =>
    if r.id == membership.id then { r with deletedAt := some s.fresh } else r)
  let domainID := resolveDomainIDSafe s t.code
  let dms :=
    if domainID != 0 then
      s.domainMembers.filter (fun m => !(m == (domainID, userID)))
    else s.domainMembers
  let tus2 :=
    if membership.isDefault then
      match oldestFirst (tus1.filter (fun r =>
          r.userID == userID && r.deletedAt.isNone && r.status == "active")) with
      | some alt => tus1.map (fun r => if r.id == alt.id then { r with isDefault := true } else r)
      | none => tus1
    else tus1
  (.ok (), { s with tenantUsers := tus2, domainMembers := dms, fresh := s.fresh + 1 })

/-- Error values of the ou organization service (ou/organization, service
section of handler.go), plus a generic invalid-input and storage error for
the errors.New validation messages and unwrapped storage failures. -/
inductive OErr where
  | domainContextMissing
  | invalidDomainID
  | organizationNotFound
  | memberAlreadyExists
  | invalidInput
  | upstream
  deriving Repr, DecidableEq

/-- A row of the organization table (core ent schema Organization). -/
structure OrgRow where
  id : Nat
  domainID : Nat
  parentID : Option Nat
  code : String
  name : String
  path : String
  deriving Repr, DecidableEq

/-- A row of the organization_member table (core ent schema
OrganizationMember). -/
structure OrgMemberRow where
  id : Nat
  domainID : Nat
  organizationID : Nat
  userID : Nat
  isPrimary : Bool
  deriving Repr, DecidableEq

/-- State of the ou organization service: the two ent-backed tables and a
monotone counter supplying fresh row ids. -/
structure OSt where
  orgs : List OrgRow
  members : List OrgMemberRow
  fresh : Nat
  deriving Repr, DecidableEq

/-- The current-domain information carried by the ambient request context,
as consumed by domainIDFromContext: the raw value may be missing, fail to
parse as a UUID, or yield a domain id. -/
inductive DomainCtx where
  | missing
  | invalid
  | valid (domainID : Nat)
  deriving Repr, DecidableEq

/-- domainIDFromContext: core.GetDomainID plus uuid.Parse. -/
def domainIDFromContext (ctx : DomainCtx) : Except OErr Nat :=
  match ctx with
  | .missing => .error .domainContextMissing
  | .invalid => .error .invalidDomainID
  | .valid d => .ok d

/-- The ent Only query on organizations filtered by id and domain: not
found when no row matches, a generic storage error when several do. -/
def onlyOrg (s : OSt) (domainID orgID : Nat) : Except OErr OrgRow :=
  match s.orgs.filter (fun n => n.id == orgID && n.domainID == domainID) with
  | [] => .error .organizationNotFound
  | [n] => .ok n
  | _ => .error .upstream

/-- CreateOrganizationRequest DTO (ou/organization/dto.go). -/
structure CreateOrganizationRequest where
  code : String
  name : String
  parentID : Option Nat

/-- AddOrganizationMemberRequest DTO (ou/organization/dto.go). -/
structure AddOrganizationMemberRequest where
  userID : Nat
  isPrimary : Bool

/-- CreateOrganization: trims and requires code and name, resolves the
optional parent in the same domain (OrganizationNotFound otherwise), and
materializes the path as parent.path + "/" + code, or just code when the
parent path prefix is empty.  The store-level (domainID, path) uniqueness
constraint surfaces as a generic storage error from Save. -/
def createOrganization (ctx : DomainCtx) (req : CreateOrganizationRequest)
    (s : OSt) : Except OErr OrgRow × OSt :=
  match domainIDFromContext ctx with
  | .error e => (.error e, s)
  | .ok domainID =>
  let code := trimSpace req.code
  let name := trimSpace req.name
  if code == "" || name == "" then (.error .invalidInput, s)
  else
  let pathPrefixRes : Except OErr (Option Nat × String) :=
    match req.parentID with
    | some pid =>
        match onlyOrg s domainID pid with
        | .error e => .error e
        | .ok parent => .ok (some parent.id, parent.path)
    | none => .ok (none, "")
  match pathPrefixRes with
  | .error e => (.error e, s)
  | .ok (parentOpt, pathPrefixStr) =>
  let path := if pathPrefixStr == "" then code else pathPrefixStr ++ "/" ++ code
  if s.orgs.any (fun n => n.domainID == domainID && n.path == path) then
    (.error .upstream, s)
  else
    let item : OrgRow :=
      { id := s.fresh, domainID := domainID, parentID := parentOpt
        code := code, name := name, path := path }
    (.ok item, { s with orgs := s.orgs ++ [item], fresh := s.fresh + 1 })

/-- AddOrganizationMember: requires a domain context and a non-nil user,
the organization must exist in the domain, any existing primary rows of the
(domain, user) pair are demoted before a primary insert, and the insert
itself fails on the store uniqueness constraint for the
(domain, organization, user) triple.  The demotion is not transactional
with the insert: it persists even when the insert fails. -/
def addOrganizationMember (ctx : DomainCtx) (organizationID : Nat)
    (req : AddOrganizationMemberRequest) (s : OSt) :
    Except OErr OrgMemberRow × OSt :=
  match domainIDFromContext ctx with
  | .error e => (.error e, s)
  | .ok domainID =>
  if req.userID == 0 then (.error .invalidInput, s)
  else
  match onlyOrg s domainID organizationID with
  | .error e => (.error e, s)
  | .ok _ =>
  let demoted :=
    if req.isPrimary then
      s.members.map (fun m =>
        if m.domainID == domainID && m.userID == req.userID && m.isPrimary then
          { m with isPrimary := false }
        else m)
    else s.members
  if s.members.any (fun m =>
      m.domainID == domainID && m.organizationID == organizationID
        && m.userID == req.userID) then
    (.error .memberAlreadyExists, { s with members := demoted })
  else
    let item : OrgMemberRow :=
      { id := s.fresh, domainID := domainID, organizationID := organizationID
        userID := req.userID, isPrimary := req.isPrimary }
    (.ok item, { s with members := demoted ++ [item], fresh := s.fresh + 1 })

/-- The raw string prefix test used by the ent PathHasPrefix predicate. -/
def hasPathPrefix (path p : String) : Bool :=
  p.data.isPrefixOf path.data

/-- uniqueUserIDs: collect member user ids in order, skipping ids already
seen (the seen-set accumulator mirrors the Go map). -/
def uniqueUserIDsAux (seen : List Nat) : List OrgMemberRow → List Nat
  | [] => []
  | m :: rest =>
      if seen.contains m.userID then uniqueUserIDsAux seen rest
      else m.userID :: uniqueUserIDsAux (m.userID :: seen) rest

/-- uniqueUserIDs over a member list, starting from an empty seen set. -/
def uniqueUserIDs (l : List OrgMemberRow) : List Nat :=
  uniqueUserIDsAux [] l

/-- ListSubtreeUserIDs: load the root node in-domain (OrganizationNotFound
when absent), select every in-domain node whose path has the root path as a
raw string prefix, and return the deduplicated user ids of the memberships
of those nodes. -/
def listSubtreeUserIDs (domainID orgID : Nat) (s : OSt) :
    Except OErr (List Nat) :=
  match onlyOrg s domainID orgID with
  | .error e => .error e
  | .ok org =>
      let nodes := s.orgs.filter (fun n =>
        n.domainID == domainID && hasPathPrefix n.path org.path)
      if nodes.isEmpty then .ok []
      else
        let orgIDs := nodes.map (fun n => n.id)
        let mems := s.members.filter (fun m =>
          m.domainID == domainID && orgIDs.contains m.organizationID)
        .ok (uniqueUserIDs mems)

/-- Node membership in the subtree rooted at a given organization id,
through the parentID links: the root itself, and transitively every node
whose parent is in the subtree. -/
inductive InSubtree (s : OSt) (root : Nat) : Nat → Prop where
  | base : InSubtree s root root
  | step {c : OrgRow} {p : Nat} : c ∈ s.orgs → c.parentID = some p →
      InSubtree s root p → InSubtree s root c.id

/-- Path consistency of an organization state: every child row points at an
existing parent row of the same domain and its materialized path is the
parent path extended with its own code.  CreateOrganization establishes
exactly this shape. -/
def pathConsistent (s : OSt) : Prop :=
  ∀ c ∈ s.orgs, ∀ pid, c.parentID = some pid →
    ∃ p ∈ s.orgs, p.id = pid ∧ p.domainID = c.domainID ∧
      c.path = p.path ++ "/" ++ c.code

/-! Concrete fixtures used by the counterexample and witness theorems. -/

/-- A platform-domain acting context with no acting user. -/
def ctxPlat : Ctx := { isPlatformDomain := true, userID := none }

/-- A platform-domain acting context for acting user 10. -/
def ctxOwner : Ctx := { isPlatformDomain := true, userID := some 10 }

/-- Tenant fixture A. -/
def tenantA : TenantRow :=
  { id := 1, code := "alpha", name := "Alpha", description := "", status := "active"
    ownerID := none, parentTenantID := none, createdAt := 0, deletedAt := none }

/-- Tenant fixture B. -/
def tenantB : TenantRow := { tenantA with id := 2, code := "beta", name := "Beta" }

/-- User fixture. -/
def userU : UserInfo := { id := 10, username := "u", email := "u@x" }

/-- Base state with two tenants, one user, and nothing else. -/
def stAB : St :=
  { tenants := [tenantA, tenantB], tenantUsers := [], users := [userU]
    domains := [], domainMembers := [], seededDomains := [], fresh := 100 }

/-- Number of active (non-deleted, status active) default memberships a user
holds across all tenants. -/
def activeDefaultCount (uid : Nat) (l : List TenantUserRow) : Nat :=
  (l.filter (fun r =>
    r.userID == uid && r.deletedAt.isNone && r.status == "active" && r.isDefault)).length

/-- The four-call sequential trace AddMember(A,10), AddMember(B,10),
RemoveMember(A,10), AddMember(A,10) from the two-tenant base state. -/
def c2Trace : St :=
  (addMember ctxPlat 1 10 ""
    (removeMember ctxPlat 1 10
      (addMember ctxPlat 2 10 ""
        (addMember ctxPlat 1 10 "" stAB).2).2).2).2

/-- C2: after the sequential trace AddMember(A,U), AddMember(B,U),
RemoveMember(A,U), AddMember(A,U) — no concurrency involved — user U holds
two active memberships with isDefault = true: the soft delete keeps the
default flag on the removed row, RemoveMember promotes the remaining row,
and reactivation restores the stale flag without demoting the promoted one.
This refutes the at-most-one-default invariant for sequential call
sequences. -/
theorem c2_sequential_double_default :
    activeDefaultCount 10 c2Trace.tenantUsers = 2 ∧
    (addMember ctxPlat 1 10 "" stAB).1 = .ok () ∧
    (addMember ctxPlat 2 10 "" (addMember ctxPlat 1 10 "" stAB).2).1 = .ok () ∧
    (removeMember ctxPlat 1 10
      (addMember ctxPlat 2 10 "" (addMember ctxPlat 1 10 "" stAB).2).2).1 = .ok () ∧
    (addMember ctxPlat 1 10 ""
      (removeMember ctxPlat 1 10
        (addMember ctxPlat 2 10 ""
          (addMember ctxPlat 1 10 "" stAB).2).2).2).1 = .ok () := by
  refine ⟨rfl, rfl, rfl, rfl, rfl⟩

/-- Faults making only the role seeding call fail. -/
def seedFaults : Faults := { noFaults with seedRolesFails := true }

/-- CreateTenant request fixture. -/
def reqAcme : CreateRequest :=
  { code := "acme", name := "Acme", description := "", status := ""
    parentTenantID := none }

/-- Empty starting state. -/
def stEmpty : St :=
  { tenants := [], tenantUsers := [], users := [userU]
    domains := [], domainMembers := [], seededDomains := [], fresh := 1 }

/-- C1 counterexample: when the role seeding step fails, CreateTenant
returns an error and the transaction drops the tenant row, but the domain
record created through the external domain directory survives — the claimed
all-or-nothing absence of the domain record does not hold. -/
theorem c1_counterexample :
    (createTenant seedFaults ctxOwner reqAcme stEmpty).1 = .error .upstream ∧
    (createTenant seedFaults ctxOwner reqAcme stEmpty).2.domains.any
      (fun d => d.typeCode == "tenant" && d.key == "acme") = true := by
  refine ⟨rfl, rfl⟩

/-- EnsureDomain never touches the tenant table. -/
theorem ensureDomain_tenants (s : St) (a b c : String) :
    (ensureDomain s a b c).2.tenants = s.tenants := by
  unfold ensureDomain
  split <;> simp

/-- EnsureDomain never touches the tenant_user table. -/
theorem ensureDomain_tenantUsers (s : St) (a b c : String) :
    (ensureDomain s a b c).2.tenantUsers = s.tenantUsers := by
  unfold ensureDomain
  split <;> simp

/-- C1 amended: every failure of any step of CreateTenant rolls back the
store transaction, so the tenant row and the owner membership row are
absent afterwards (the tenants and tenant_user tables are exactly the input
ones); effects routed through the external collaborators (domain record,
seeded roles, domain memberships) are outside the transaction and may
survive. -/
theorem c1_rollback (fl : Faults) (ctx : Ctx) (req : CreateRequest) (s : St)
    (r : Except TErr TenantRow) (s' : St) (e : TErr)
    (heq : createTenant fl ctx req s = (r, s')) (he : r = .error e) :
    s'.tenants = s.tenants ∧ s'.tenantUsers = s.tenantUsers := by
  unfold createTenant at heq
  simp only [] at heq
  cases hrp : requirePlatformDomain ctx with
  | error e0 =>
      rw [hrp] at heq; simp only [] at heq
      cases heq; exact ⟨rfl, rfl⟩
  | ok u0 =>
  rw [hrp] at heq; simp only [] at heq
  by_cases hv : (trimSpace req.code == "" || trimSpace req.name == "") = true
  · rw [if_pos hv] at heq; cases heq; exact ⟨rfl, rfl⟩
  · rw [if_neg hv] at heq
    cases hpar : resolveParentTenantID s req.parentTenantID 0 with
    | error e1 => rw [hpar] at heq; simp only [] at heq; cases heq; exact ⟨rfl, rfl⟩
    | ok parentOpt =>
    rw [hpar] at heq; simp only [] at heq
    by_cases hcode : (s.tenants.any fun t => t.code == trimSpace req.code) = true
    · rw [if_pos hcode] at heq; cases heq; exact ⟨rfl, rfl⟩
    · rw [if_neg hcode] at heq
      by_cases hf1 : fl.ensureDomainFails = true
      · rw [if_pos hf1] at heq; cases heq; exact ⟨rfl, rfl⟩
      · rw [if_neg hf1] at heq
        cases hed : ensureDomain { s with fresh := s.fresh + 1 } "tenant"
            (trimSpace req.code) (trimSpace req.name) with
        | mk dom s1 =>
        rw [hed] at heq; simp only [] at heq
        have h1 : s1.tenants = s.tenants := by
          have h := ensureDomain_tenants { s with fresh := s.fresh + 1 }
            "tenant" (trimSpace req.code) (trimSpace req.name)
          rw [hed] at h; exact h
        have h2 : s1.tenantUsers = s.tenantUsers := by
          have h := ensureDomain_tenantUsers { s with fresh := s.fresh + 1 }
            "tenant" (trimSpace req.code) (trimSpace req.name)
          rw [hed] at h; exact h
        by_cases hf2 : fl.seedRolesFails = true
        · rw [if_pos hf2] at heq; cases heq; exact ⟨h1, h2⟩
        · rw [if_neg hf2] at heq
          cases huid : ctx.userID with
          | none => rw [huid] at heq; simp only [] at heq; cases heq; cases he
          | some owner =>
          rw [huid] at heq; simp only [] at heq
          by_cases hf3 : fl.addDomainMembershipFails = true
          · rw [if_pos hf3] at heq; cases heq; exact ⟨h1, h2⟩
          · rw [if_neg hf3] at heq
            split at heq
            · cases heq; exact ⟨h1, h2⟩
            · cases heq; cases he

/-- Witness for the rollback theorem: instantiated at the seed-failure
counterexample input, discharging the two equational hypotheses by
evaluation. -/
theorem c1_rollback_witness :
    (createTenant seedFaults ctxOwner reqAcme stEmpty).2.tenants = stEmpty.tenants ∧
    (createTenant seedFaults ctxOwner reqAcme stEmpty).2.tenantUsers = stEmpty.tenantUsers :=
  c1_rollback seedFaults ctxOwner reqAcme stEmpty
    (createTenant seedFaults ctxOwner reqAcme stEmpty).1
    (createTenant seedFaults ctxOwner reqAcme stEmpty).2 .upstream rfl rfl

/-- resolveParentTenantID can fail only with ErrParentTenantInvalid or a
generic storage error, never with ErrTenantNotFound. -/
theorem resolveParent_ne_tenantNotFound (s : St) (ref : ParentRef) (selfID : Nat) :
    resolveParentTenantID s ref selfID ≠ .error .tenantNotFound := by
  intro h
  unfold resolveParentTenantID at h
  cases ref with
  | none => exact absurd h (by simp)
  | some r =>
      cases r with
      | inl pid =>
          simp only [] at h
          split at h
          · simp at h
          · split at h <;> simp at h
          · simp at h
      | inr code =>
          simp only [] at h
          split at h
          · simp at h
          · split at h <;> simp at h
          · simp at h

/-- A soft-deleted tenant fixture. -/
def tenantDel : TenantRow :=
  { tenantA with id := 3, code := "gamma", deletedAt := some 5 }

/-- State holding only the soft-deleted tenant. -/
def stDel : St := { stEmpty with tenants := [tenantDel] }

/-- Update request fixture renaming the tenant. -/
def req7 : UpdateRequest :=
  { name := "New", description := "", status := "", parentTenantID := none }

/-- C7 counterexample: tenant 3 carries a deletion timestamp, yet
UpdateTenant succeeds and applies the new name — the ent Get used by
UpdateTenant does not filter soft-deleted rows, so the claimed
TenantNotFound failure for soft-deleted tenants does not happen. -/
theorem c7_counterexample :
    stDel.tenants.find? (fun t => t.id == 3) = some tenantDel ∧
    tenantDel.deletedAt = some 5 ∧
    (updateTenant ctxPlat 3 req7 stDel).1 = .ok { tenantDel with name := "New" } ∧
    (updateTenant ctxPlat 3 req7 stDel).2.tenants = [{ tenantDel with name := "New" }] :=
  ⟨rfl, rfl, rfl, rfl⟩

/-- C7 amended: under the platform gate, UpdateTenant fails with
ErrTenantNotFound exactly when no tenant row (deleted or not) carries the
requested id; a soft-deleted tenant is loaded and updated like any
other. -/
theorem c7_update_not_found_iff (ctx : Ctx) (id : Nat) (req : UpdateRequest)
    (s : St) (hctx : ctx.isPlatformDomain = true) :
    (updateTenant ctx id req s).1 = .error .tenantNotFound ↔
      s.tenants.find? (fun t => t.id == id) = none := by
  unfold updateTenant
  simp only [requirePlatformDomain, hctx, if_true]
  cases hf : s.tenants.find? (fun t => t.id == id) with
  | none => simp
  | some t =>
      simp only []
      cases hpar : resolveParentTenantID s req.parentTenantID id with
      | error e1 =>
          have hne := resolveParent_ne_tenantNotFound s req.parentTenantID id
          rw [hpar] at hne
          simp only []
          constructor
          · intro hcontra
            cases hcontra
            exact absurd rfl hne
          · intro hcontra; cases hcontra
      | ok parentOpt => simp

/-- Witness for the amended UpdateTenant theorem at a concrete input. -/
theorem c7_witness :
    ctxPlat.isPlatformDomain = true ∧
    ((updateTenant ctxPlat 99 req7 stDel).1 = .error .tenantNotFound ↔
      stDel.tenants.find? (fun t => t.id == 99) = none) :=
  ⟨rfl, c7_update_not_found_iff ctxPlat 99 req7 stDel rfl⟩

/-- Organization fixture: a root node with path "a". -/
def orgA : OrgRow :=
  { id := 1, domainID := 7, parentID := none, code := "a", name := "A", path := "a" }

/-- Organization fixture: an unrelated root node whose path "ab" happens to
extend "a" as a raw string. -/
def orgAB : OrgRow :=
  { id := 2, domainID := 7, parentID := none, code := "ab", name := "AB", path := "ab" }

/-- A member assigned to the unrelated node only. -/
def memAB : OrgMemberRow :=
  { id := 1, domainID := 7, organizationID := 2, userID := 99, isPrimary := false }

/-- Organization state with the two sibling roots and the one member. -/
def stOrg : OSt := { orgs := [orgA, orgAB], members := [memAB], fresh := 10 }

/-- C3 counterexample: ListSubtreeUserIDs on root "a" returns user 99, but
the only membership of user 99 is on node "ab", which is not the queried
node and not one of its descendants — the raw string prefix query sweeps in
the unrelated sibling root. -/
theorem c3_counterexample :
    listSubtreeUserIDs 7 1 stOrg = .ok [99] ∧
    (∀ m ∈ stOrg.members, m.organizationID = 2) ∧
    ¬ InSubtree stOrg 1 2 := by
  refine ⟨rfl, ?_, ?_⟩
  · intro m hm
    simp only [stOrg, List.mem_singleton] at hm
    subst hm
    rfl
  · have key : ∀ n, InSubtree stOrg 1 n → n = 1 := by
      intro n h
      induction h with
      | base => rfl
      | step hc hp hsub ih =>
          rename_i c p
          simp [stOrg, orgA, orgAB] at hc
          rcases hc with rfl | rfl <;> simp at hp
    intro h
    exact absurd (key 2 h) (by decide)

/-- ensureMembership never fails in the absence of storage faults: every
path returns a nil error. -/
theorem ensureMembership_ok (s : St) (tid uid : Nat) (fd : Bool) (rn : String) :
    (ensureMembership s tid uid fd rn).1 = .ok () := by
  unfold ensureMembership
  split
  · split <;> rfl
  · rfl

/-- C8: when no row exists for the (tenant, user) pair, ensureMembership
appends exactly one fresh row for the pair, succeeds, and sets the new
isDefault flag to true exactly when forceDefault is requested or the user
holds no other active non-deleted default membership anywhere (the
hypothesis that non-deleted rows of the user are active reflects that the
service only ever writes status "active"); in particular the first
membership ever created for a user is its default. -/
theorem c8_fresh_membership_default (s : St) (tid uid : Nat)
    (forceDefault : Bool) (roleName : String)
    (hnone : s.tenantUsers.find? (fun r => r.tenantID == tid && r.userID == uid) = none)
    (hstat : ∀ r ∈ s.tenantUsers, r.userID = uid → r.deletedAt = none → r.status = "active") :
    ∃ row : TenantUserRow,
      (ensureMembership s tid uid forceDefault roleName).1 = .ok () ∧
      (ensureMembership s tid uid forceDefault roleName).2.tenantUsers
        = s.tenantUsers ++ [row] ∧
      row.tenantID = tid ∧ row.userID = uid ∧
      (row.isDefault = true ↔
        (forceDefault = true ∨
          ¬ ∃ r ∈ s.tenantUsers, r.userID = uid ∧ r.isDefault = true ∧
              r.deletedAt = none ∧ r.status = "active")) ∧
      ((∀ r ∈ s.tenantUsers, r.userID ≠ uid) → row.isDefault = true) := by
  have hbridge :
      (s.tenantUsers.any (fun r =>
        r.userID == uid && r.isDefault && r.deletedAt.isNone) = true) ↔
      (∃ r ∈ s.tenantUsers, r.userID = uid ∧ r.isDefault = true ∧
          r.deletedAt = none ∧ r.status = "active") := by
    rw [List.any_eq_true]
    constructor
    · rintro ⟨r, hr, hcond⟩
      simp only [Bool.and_eq_true, beq_iff_eq, Option.isNone_iff_eq_none] at hcond
      obtain ⟨⟨h1, h2⟩, h3⟩ := hcond
      exact ⟨r, hr, h1, h2, h3, hstat r hr h1 h3⟩
    · rintro ⟨r, hr, h1, h2, h3, _⟩
      refine ⟨r, hr, ?_⟩
      simp [h1, h2, h3]
  unfold ensureMembership
  rw [hnone]
  dsimp only []
  refine ⟨_, rfl, rfl, rfl, rfl, ?_, ?_⟩
  · cases hany : s.tenantUsers.any (fun r =>
        r.userID == uid && r.isDefault && r.deletedAt.isNone) with
    | false =>
        simp only [hany, Bool.not_false, Bool.or_true, true_iff]
        right
        intro hex
        rw [← hbridge] at hex
        exact absurd hex (by simp [hany])
    | true =>
        simp only [hany, Bool.not_true, Bool.or_false]
        constructor
        · intro hfd; exact Or.inl hfd
        · rintro (hfd | hnot)
          · exact hfd
          · exact absurd (hbridge.mp hany) hnot
  · intro hnouser
    have hany : s.tenantUsers.any (fun r =>
        r.userID == uid && r.isDefault && r.deletedAt.isNone) = false := by
      rw [← Bool.not_eq_true, List.any_eq_true]
      rintro ⟨r, hr, hcond⟩
      simp only [Bool.and_eq_true, beq_iff_eq] at hcond
      exact hnouser r hr hcond.1.1
    simp [hany]

/-- Witness for the fresh-insert default rule, at the empty membership
table: the hypotheses hold trivially and the inserted row is default. -/
theorem c8_witness :
    ∃ row : TenantUserRow,
      (ensureMembership stAB 1 10 false "member").1 = .ok () ∧
      (ensureMembership stAB 1 10 false "member").2.tenantUsers
        = stAB.tenantUsers ++ [row] ∧
      row.tenantID = 1 ∧ row.userID = 10 ∧
      (row.isDefault = true ↔
        (false = true ∨
          ¬ ∃ r ∈ stAB.tenantUsers, r.userID = 10 ∧ r.isDefault = true ∧
              r.deletedAt = none ∧ r.status = "active")) ∧
      ((∀ r ∈ stAB.tenantUsers, r.userID ≠ 10) → row.isDefault = true) :=
  c8_fresh_membership_default stAB 1 10 false "member" rfl (by simp [stAB])

/-- The duplicate-identity conflict flag holds exactly when some other
active non-deleted member of the tenant resolves to a user record sharing
the candidate username or email. -/
theorem memberConflict_iff (s : St) (tid uid : Nat) (u : UserInfo) :
    memberConflict s tid uid u = true ↔
      ∃ m ∈ s.tenantUsers, m.tenantID = tid ∧ m.deletedAt = none ∧
        m.status = "active" ∧ m.userID ≠ uid ∧
        ∃ mu, s.users.find? (fun w => w.id == m.userID) = some mu ∧
          (mu.username = u.username ∨ mu.email = u.email) := by
  unfold memberConflict
  rw [List.any_eq_true]
  constructor
  · rintro ⟨m, hm, hcond⟩
    rw [List.mem_filter] at hm
    obtain ⟨hmem, hfl⟩ := hm
    simp only [Bool.and_eq_true, beq_iff_eq, Option.isNone_iff_eq_none] at hfl
    obtain ⟨⟨h1, h2⟩, h3⟩ := hfl
    rw [Bool.and_eq_true] at hcond
    obtain ⟨hne, hmatch⟩ := hcond
    rw [Bool.not_eq_true'] at hne
    cases hfind : s.users.find? (fun w => w.id == m.userID) with
    | none => rw [hfind] at hmatch; exact absurd hmatch (by simp)
    | some mu =>
        rw [hfind] at hmatch
        simp only [Bool.or_eq_true, beq_iff_eq] at hmatch
        exact ⟨m, hmem, h1, h2, h3, by simpa using hne, mu, hfind, hmatch⟩
  · rintro ⟨m, hmem, h1, h2, h3, hne, mu, hfind, hor⟩
    refine ⟨m, List.mem_filter.mpr ⟨hmem, by simp [h1, h2, h3]⟩, ?_⟩
    rw [Bool.and_eq_true, Bool.not_eq_true']
    refine ⟨by simpa using hne, ?_⟩
    rw [hfind]
    simpa using hor

/-- C6: under the platform gate, with the tenant loaded and the candidate
user resolved, AddMember fails with ErrMemberExists exactly when some other
active non-deleted member of the same tenant shares the candidate username
or email; otherwise the call succeeds (so the same identity can join a
different tenant). -/
theorem c6_member_exists_iff (ctx : Ctx) (tid uid : Nat) (role : String)
    (s : St) (t : TenantRow) (u : UserInfo)
    (hctx : ctx.isPlatformDomain = true)
    (ht : s.tenants.find? (fun x => x.id == tid) = some t)
    (hu : s.users.find? (fun w => w.id == uid) = some u) :
    ((addMember ctx tid uid role s).1 = .error .memberExists ↔
      ∃ m ∈ s.tenantUsers, m.tenantID = t.id ∧ m.deletedAt = none ∧
        m.status = "active" ∧ m.userID ≠ uid ∧
        ∃ mu, s.users.find? (fun w => w.id == m.userID) = some mu ∧
          (mu.username = u.username ∨ mu.email = u.email)) ∧
    ((addMember ctx tid uid role s).1 = .error .memberExists ∨
      (addMember ctx tid uid role s).1 = .ok ()) := by
  unfold addMember
  simp only [requirePlatformDomain, hctx, if_true]
  rw [ht, hu]
  simp only []
  by_cases hc : memberConflict s t.id uid u = true
  · rw [if_pos hc]
    refine ⟨?_, Or.inl rfl⟩
    constructor
    · intro _; exact (memberConflict_iff s t.id uid u).mp hc
    · intro _; rfl
  · rw [if_neg hc]
    constructor
    · rw [ensureMembership_ok]
      constructor
      · intro hcontra; exact absurd hcontra (by simp)
      · intro hex
        exact absurd ((memberConflict_iff s t.id uid u).mpr hex) hc
    · right
      exact ensureMembership_ok ..

/-- A candidate user sharing the username of an existing member. -/
def userBob1 : UserInfo := { id := 11, username := "bob", email := "b1@x" }

/-- The existing member with the colliding username. -/
def userBob2 : UserInfo := { id := 12, username := "bob", email := "b2@x" }

/-- Active membership of the existing member in tenant A. -/
def rowBob2A : TenantUserRow :=
  { id := 50, tenantID := 1, userID := 12, role := "member", isDefault := true
    status := "active", createdAt := 1, deletedAt := none }

/-- State where tenant A already holds the member with username "bob". -/
def stConf : St :=
  { stAB with users := [userU, userBob1, userBob2], tenantUsers := [rowBob2A] }

/-- Witness for the AddMember conflict rule: adding user 11 (username
"bob") to tenant A, where the distinct user 12 is an active member with the
same username. -/
theorem c6_witness :
    ((addMember ctxPlat 1 11 "" stConf).1 = .error .memberExists ↔
      ∃ m ∈ stConf.tenantUsers, m.tenantID = tenantA.id ∧ m.deletedAt = none ∧
        m.status = "active" ∧ m.userID ≠ 11 ∧
        ∃ mu, stConf.users.find? (fun w => w.id == m.userID) = some mu ∧
          (mu.username = userBob1.username ∨ mu.email = userBob1.email)) ∧
    ((addMember ctxPlat 1 11 "" stConf).1 = .error .memberExists ∨
      (addMember ctxPlat 1 11 "" stConf).1 = .ok ()) :=
  c6_member_exists_iff ctxPlat 1 11 "" stConf tenantA userBob1 rfl rfl rfl

/-- C10: when the candidate already holds an active non-deleted membership
row in the tenant and no other active member of the tenant collides with
the candidate identity (the invariant AddMember itself maintains), AddMember
succeeds again and leaves the tenant_user table — in particular the role
and default flag of the existing row — completely unchanged. -/
theorem c10_add_member_idempotent (ctx : Ctx) (tid uid : Nat) (role : String)
    (s : St) (t : TenantRow) (u : UserInfo) (r0 : TenantUserRow)
    (hctx : ctx.isPlatformDomain = true)
    (ht : s.tenants.find? (fun x => x.id == tid) = some t)
    (hu : s.users.find? (fun w => w.id == uid) = some u)
    (hr : s.tenantUsers.find? (fun x => x.tenantID == t.id && x.userID == uid) = some r0)
    (hact : r0.deletedAt = none) (hst : r0.status = "active")
    (hident : ∀ m ∈ s.tenantUsers, m.tenantID = t.id → m.deletedAt = none →
      m.status = "active" → m.userID ≠ uid →
      ∀ mu, s.users.find? (fun w => w.id == m.userID) = some mu →
        mu.username ≠ u.username ∧ mu.email ≠ u.email) :
    (addMember ctx tid uid role s).1 = .ok () ∧
    (addMember ctx tid uid role s).2.tenantUsers = s.tenantUsers := by
  have hnoconf : memberConflict s t.id uid u = false := by
    rw [← Bool.not_eq_true, memberConflict_iff]
    rintro ⟨m, hmem, h1, h2, h3, hne, mu, hfind, hor⟩
    obtain ⟨hun, hem⟩ := hident m hmem h1 h2 h3 hne mu hfind
    rcases hor with h | h
    · exact hun h
    · exact hem h
  have hensure : ∀ s1 : St, s1.tenantUsers = s.tenantUsers →
      (ensureMembership s1 t.id uid false
        (if role == "" then "member" else role)).2.tenantUsers = s.tenantUsers := by
    intro s1 hs1
    unfold ensureMembership
    rw [hs1, hr]
    dsimp only []
    rw [hact, hst]
    dsimp only [Option.isNone_none]
    rw [if_pos (by simp)]
    exact hs1
  unfold addMember
  simp only [requirePlatformDomain, hctx, if_true]
  rw [ht, hu]
  dsimp only []
  rw [hnoconf]
  rw [if_neg (by simp)]
  constructor
  · exact ensureMembership_ok ..
  · by_cases hd : (resolveDomainIDSafe s t.code != 0) = true
    · rw [if_pos hd]
      by_cases hc : s.domainMembers.contains (resolveDomainIDSafe s t.code, uid) = true
      · rw [if_pos hc]
        exact hensure _ rfl
      · rw [if_neg hc]
        exact hensure _ rfl
    · rw [if_neg hd]
      exact hensure _ rfl

/-- Active membership of user 11 in tenant A. -/
def row11A : TenantUserRow :=
  { id := 60, tenantID := 1, userID := 11, role := "admin", isDefault := true
    status := "active", createdAt := 2, deletedAt := none }

/-- State where user 11 is already an active member of tenant A. -/
def stIdem : St :=
  { stAB with users := [userU, userBob1], tenantUsers := [row11A] }

/-- Witness for the idempotency theorem: re-adding the already-active
member 11 to tenant A succeeds and changes nothing. -/
theorem c10_witness :
    (addMember ctxPlat 1 11 "member" stIdem).1 = .ok () ∧
    (addMember ctxPlat 1 11 "member" stIdem).2.tenantUsers = stIdem.tenantUsers :=
  c10_add_member_idempotent ctxPlat 1 11 "member" stIdem tenantA userBob1 row11A
    rfl rfl rfl rfl rfl rfl
    (by
      intro m hm h1 h2 h3 h4
      have : m = row11A := by simpa [stIdem] using hm
      subst this
      exact absurd rfl h4)

/-- onlyOrg fails with OrganizationNotFound exactly when no node of the
domain carries the requested id. -/
theorem onlyOrg_err (s : OSt) (d o : Nat)
    (h : ∀ n ∈ s.orgs, ¬(n.id = o ∧ n.domainID = d)) :
    onlyOrg s d o = .error .organizationNotFound := by
  unfold onlyOrg
  have hfl : s.orgs.filter (fun n => n.id == o && n.domainID == d) = [] := by
    rw [List.filter_eq_nil_iff]
    intro n hn
    simp only [Bool.and_eq_true, beq_iff_eq]
    exact h n hn
  rw [hfl]

/-- With pairwise-distinct node ids, onlyOrg returns the unique in-domain
node with the requested id. -/
theorem onlyOrg_ok (s : OSt) (d o : Nat) (root : OrgRow)
    (hids : (s.orgs.map (fun n => n.id)).Nodup)
    (hr : root ∈ s.orgs) (h1 : root.id = o) (h2 : root.domainID = d) :
    onlyOrg s d o = .ok root := by
  unfold onlyOrg
  have hinj := List.inj_on_of_nodup_map hids
  have hmem : root ∈ s.orgs.filter (fun n => n.id == o && n.domainID == d) :=
    List.mem_filter.mpr ⟨hr, by simp [h1, h2]⟩
  have hall : ∀ x ∈ s.orgs.filter (fun n => n.id == o && n.domainID == d), x = root := by
    intro x hx
    rw [List.mem_filter] at hx
    obtain ⟨hxm, hxf⟩ := hx
    simp only [Bool.and_eq_true, beq_iff_eq] at hxf
    exact hinj hxm hr (by rw [hxf.1, h1])
  have hnd : ((s.orgs.filter (fun n => n.id == o && n.domainID == d)).map
      (fun n => n.id)).Nodup := hids.sublist ((List.filter_sublist s.orgs).map _)
  cases hfl : s.orgs.filter (fun n => n.id == o && n.domainID == d) with
  | nil => rw [hfl] at hmem; cases hmem
  | cons a tl =>
      rw [hfl] at hall hnd
      cases tl with
      | nil =>
          have ha := hall a (by simp)
          subst ha
          rfl
      | cons b tl2 =>
          have ha := hall a (by simp)
          have hb := hall b (by simp)
          subst ha
          rw [hb] at hnd
          simp at hnd

/-- C5: with a domain context and non-empty trimmed code and name,
CreateOrganization fails with OrganizationNotFound when the requested
parent does not exist in the domain; when it does (and the store uniqueness
constraint is not hit), the created node is appended with path
parent.path + "/" + code, and with no parent the path is just the code. -/
theorem c5_create_organization_path (ctx : DomainCtx)
    (req : CreateOrganizationRequest) (s : OSt) (d : Nat)
    (hd : ctx = .valid d)
    (hc : trimSpace req.code ≠ "") (hn : trimSpace req.name ≠ "") :
    (∀ pid, req.parentID = some pid →
      ((∀ n ∈ s.orgs, ¬(n.id = pid ∧ n.domainID = d)) →
        (createOrganization ctx req s).1 = .error .organizationNotFound) ∧
      (∀ parent, parent ∈ s.orgs → parent.id = pid → parent.domainID = d →
        (s.orgs.map (fun n => n.id)).Nodup → parent.path ≠ "" →
        (¬∃ n ∈ s.orgs, n.domainID = d ∧
            n.path = parent.path ++ "/" ++ trimSpace req.code) →
        ∃ item, (createOrganization ctx req s).1 = .ok item ∧
          item.path = parent.path ++ "/" ++ trimSpace req.code ∧
          item.parentID = some parent.id ∧ item.domainID = d ∧
          (createOrganization ctx req s).2.orgs = s.orgs ++ [item])) ∧
    (req.parentID = none →
      (¬∃ n ∈ s.orgs, n.domainID = d ∧ n.path = trimSpace req.code) →
      ∃ item, (createOrganization ctx req s).1 = .ok item ∧
        item.path = trimSpace req.code ∧ item.domainID = d ∧
        (createOrganization ctx req s).2.orgs = s.orgs ++ [item]) := by
  subst hd
  constructor
  · intro pid hpid
    constructor
    · intro habs
      unfold createOrganization
      dsimp only [domainIDFromContext]
      rw [if_neg (by simp [hc, hn])]
      rw [hpid]
      dsimp only []
      rw [onlyOrg_err s d pid habs]
    · intro parent hpm hpi hpd hids hpne hfresh
      unfold createOrganization
      dsimp only [domainIDFromContext]
      rw [if_neg (by simp [hc, hn])]
      rw [hpid]
      dsimp only []
      rw [onlyOrg_ok s d pid parent hids hpm hpi hpd]
      dsimp only []
      have hpne2 : ¬((parent.path == "") = true) := by simp [hpne]
      rw [if_neg hpne2]
      have hclash : ¬((s.orgs.any fun n => n.domainID == d &&
          n.path == parent.path ++ "/" ++ trimSpace req.code) = true) := by
        rw [List.any_eq_true]
        rintro ⟨n, hnm, hnf⟩
        simp only [Bool.and_eq_true, beq_iff_eq] at hnf
        exact hfresh ⟨n, hnm, hnf.1, hnf.2⟩
      rw [if_neg hclash]
      exact ⟨_, rfl, rfl, rfl, rfl, rfl⟩
  · intro hnone hfresh
    unfold createOrganization
    dsimp only [domainIDFromContext]
    rw [if_neg (by simp [hc, hn])]
    rw [hnone]
    dsimp only []
    have hempty : (("" : String) == "") = true := rfl
    rw [if_pos hempty]
    have hclash : ¬((s.orgs.any fun n => n.domainID == d &&
        n.path == trimSpace req.code) = true) := by
      rw [List.any_eq_true]
      rintro ⟨n, hnm, hnf⟩
      simp only [Bool.and_eq_true, beq_iff_eq] at hnf
      exact hfresh ⟨n, hnm, hnf.1, hnf.2⟩
    rw [if_neg hclash]
    exact ⟨_, rfl, rfl, rfl, rfl⟩

/-- Witness for the organization path theorem: the round trip of creating
root "company" and then "engineering" under it, yielding the materialized
path "company/engineering". -/
theorem c5_witness :
    (∃ item, (createOrganization (.valid 7)
        { code := "company", name := "Co", parentID := none }
        { orgs := [], members := [], fresh := 1 }).1 = .ok item ∧
      item.path = "company" ∧ item.domainID = 7 ∧
      (createOrganization (.valid 7)
        { code := "company", name := "Co", parentID := none }
        { orgs := [], members := [], fresh := 1 }).2.orgs = [] ++ [item]) ∧
    (∃ item, (createOrganization (.valid 7)
        { code := "engineering", name := "Eng", parentID := some 1 }
        { orgs := [{ id := 1, domainID := 7, parentID := none, code := "company"
                     name := "Co", path := "company" }], members := [], fresh := 2 }).1
          = .ok item ∧
      item.path = "company/engineering" ∧ item.parentID = some 1 ∧ item.domainID = 7 ∧
      (createOrganization (.valid 7)
        { code := "engineering", name := "Eng", parentID := some 1 }
        { orgs := [{ id := 1, domainID := 7, parentID := none, code := "company"
                     name := "Co", path := "company" }], members := [], fresh := 2 }).2.orgs
        = [{ id := 1, domainID := 7, parentID := none, code := "company"
             name := "Co", path := "company" }] ++ [item]) := by
  constructor
  · exact (c5_create_organization_path (.valid 7)
      { code := "company", name := "Co", parentID := none }
      { orgs := [], members := [], fresh := 1 } 7 rfl (by decide) (by decide)).2
      rfl (by simp)
  · have h := ((c5_create_organization_path (.valid 7)
      { code := "engineering", name := "Eng", parentID := some 1 }
      { orgs := [{ id := 1, domainID := 7, parentID := none, code := "company"
                   name := "Co", path := "company" }], members := [], fresh := 2 } 7
      rfl (by decide) (by decide)).1 1 rfl).2
      { id := 1, domainID := 7, parentID := none, code := "company"
        name := "Co", path := "company" }
      (by simp) rfl rfl (by simp) (by decide) (by decide)
    obtain ⟨item, h1, h2, h3, h4, h5⟩ := h
    exact ⟨item, h1, h2, h3, h4, h5⟩

/-- The primary-flagged membership rows of a (domain, user) pair. -/
def primFilter (d u : Nat) (l : List OrgMemberRow) : List OrgMemberRow :=
  l.filter (fun m => m.domainID == d && m.userID == u && m.isPrimary)

/-- The single-primary invariant: every (domain, user) pair owns at most
one primary organization-membership row. -/
def primaryInv (s : OSt) : Prop :=
  ∀ d u, (primFilter d u s.members).length ≤ 1

/-- After demoting the primary rows of a pair, the pair has no primary
rows left. -/
theorem primFilter_demote_self (d0 u0 : Nat) (l : List OrgMemberRow) :
    primFilter d0 u0 (l.map (fun m : OrgMemberRow =>
      if m.domainID == d0 && m.userID == u0 && m.isPrimary then
        { m with isPrimary := false } else m)) = [] := by
  induction l with
  | nil => rfl
  | cons x xs ih =>
      unfold primFilter at ih ⊢
      simp only [List.map_cons, List.filter_cons]
      by_cases hx : (x.domainID == d0 && x.userID == u0 && x.isPrimary) = true
      · rw [if_pos hx]
        rw [if_neg (by simp)]
        exact ih
      · rw [if_neg hx]
        rw [if_neg (by simpa using hx)]
        exact ih

/-- Demoting the primary rows of one pair leaves the primary rows of every
other pair untouched. -/
theorem primFilter_demote_other (d0 u0 d u : Nat) (l : List OrgMemberRow)
    (hne : ¬(d0 = d ∧ u0 = u)) :
    primFilter d u (l.map (fun m : OrgMemberRow =>
      if m.domainID == d0 && m.userID == u0 && m.isPrimary then
        { m with isPrimary := false } else m)) = primFilter d u l := by
  induction l with
  | nil => rfl
  | cons x xs ih =>
      unfold primFilter at ih ⊢
      simp only [List.map_cons, List.filter_cons]
      by_cases hx : (x.domainID == d0 && x.userID == u0 && x.isPrimary) = true
      · rw [if_pos hx]
        rw [if_neg (by simp)]
        have hq : ¬((x.domainID == d && x.userID == u && x.isPrimary) = true) := by
          simp only [Bool.and_eq_true, beq_iff_eq] at hx ⊢
          rintro ⟨⟨hd, hu2⟩, _⟩
          exact hne ⟨hx.1.1.symm.trans hd, hx.1.2.symm.trans hu2⟩
        rw [if_neg hq]
        exact ih
      · rw [if_neg hx]
        by_cases hpx : (x.domainID == d && x.userID == u && x.isPrimary) = true
        · rw [if_pos hpx, if_pos hpx, ih]
        · rw [if_neg hpx, if_neg hpx]
          exact ih

/-- A single AddOrganizationMember call preserves the single-primary
invariant: inserting a primary row first demotes every existing primary
row of the pair, a non-primary insert changes no primary row, and every
failure path leaves at most the demotion behind. -/
theorem addOrganizationMember_preserves_primaryInv (ctx : DomainCtx)
    (orgID : Nat) (req : AddOrganizationMemberRequest) (s : OSt)
    (h : primaryInv s) :
    primaryInv (addOrganizationMember ctx orgID req s).2 := by
  unfold addOrganizationMember
  cases hctx : domainIDFromContext ctx with
  | error e => exact h
  | ok d =>
  dsimp only []
  by_cases hu : (req.userID == 0) = true
  · rw [if_pos hu]; exact h
  · rw [if_neg hu]
    cases ho : onlyOrg s d orgID with
    | error e => exact h
    | ok org =>
    dsimp only []
    by_cases hp : req.isPrimary = true
    · rw [if_pos hp]
      by_cases hex : (s.members.any fun m =>
          m.domainID == d && m.organizationID == orgID && m.userID == req.userID) = true
      · rw [if_pos hex]
        intro d' u'
        by_cases hpair : d = d' ∧ req.userID = u'
        · obtain ⟨rfl, rfl⟩ := hpair
          rw [primFilter_demote_self]
          simp
        · rw [primFilter_demote_other d req.userID d' u' s.members hpair]
          exact h d' u'
      · rw [if_neg hex]
        intro d' u'
        unfold primFilter
        rw [List.filter_append, List.length_append]
        by_cases hpair : d = d' ∧ req.userID = u'
        · obtain ⟨rfl, rfl⟩ := hpair
          have h1 := primFilter_demote_self d req.userID s.members
          unfold primFilter at h1
          rw [h1]
          simp [hp]
        · have h1 := primFilter_demote_other d req.userID d' u' s.members hpair
          unfold primFilter at h1
          rw [h1]
          have h2 : (List.filter (fun m : OrgMemberRow =>
              m.domainID == d' && m.userID == u' && m.isPrimary)
              [{ id := s.fresh, domainID := d, organizationID := orgID
                 userID := req.userID, isPrimary := req.isPrimary }]) = [] := by
            rw [List.filter_eq_nil_iff]
            intro a ha
            simp only [List.mem_singleton] at ha
            subst ha
            simp only [Bool.and_eq_true, beq_iff_eq]
            rintro ⟨⟨hd, hu2⟩, _⟩
            exact hpair ⟨hd, hu2⟩
          rw [h2]
          simpa using h d' u'
    · rw [if_neg hp]
      by_cases hex : (s.members.any fun m =>
          m.domainID == d && m.organizationID == orgID && m.userID == req.userID) = true
      · rw [if_pos hex]
        exact h
      · rw [if_neg hex]
        intro d' u'
        unfold primFilter
        rw [List.filter_append, List.length_append]
        have h2 : (List.filter (fun m : OrgMemberRow =>
            m.domainID == d' && m.userID == u' && m.isPrimary)
            [{ id := s.fresh, domainID := d, organizationID := orgID
               userID := req.userID, isPrimary := req.isPrimary }]) = [] := by
          rw [List.filter_eq_nil_iff]
          intro a ha
          simp only [List.mem_singleton] at ha
          subst ha
          simp only [Bool.and_eq_true, beq_iff_eq]
          rintro ⟨_, hprim⟩
          exact hp hprim
        rw [h2]
        simpa using h d' u'

/-- Run a list of AddOrganizationMember calls sequentially, threading the
state. -/
def runAddMembers (calls : List (DomainCtx × Nat × AddOrganizationMemberRequest))
    (s : OSt) : OSt :=
  match calls with
  | [] => s
  | c :: rest => runAddMembers rest (addOrganizationMember c.1 c.2.1 c.2.2 s).2

/-- C9: starting from any state satisfying the single-primary invariant,
any sequential sequence of AddOrganizationMember calls keeps at most one
isPrimary row per (domainID, userID) pair. -/
theorem c9_primary_invariant
    (calls : List (DomainCtx × Nat × AddOrganizationMemberRequest)) (s : OSt)
    (h : primaryInv s) : primaryInv (runAddMembers calls s) := by
  induction calls generalizing s with
  | nil => exact h
  | cons c rest ih =>
      exact ih (addOrganizationMember c.1 c.2.1 c.2.2 s).2
        (addOrganizationMember_preserves_primaryInv c.1 c.2.1 c.2.2 s h)

/-- Two-organization fixture state for the primary-invariant witness. -/
def stTwoOrgs : OSt :=
  { orgs := [{ id := 1, domainID := 3, parentID := none, code := "x", name := "X", path := "x" },
             { id := 2, domainID := 3, parentID := none, code := "y", name := "Y", path := "y" }]
    members := [], fresh := 10 }

/-- Two consecutive primary adds of the same user to different
organizations of the same domain. -/
def callsTwoPrimary : List (DomainCtx × Nat × AddOrganizationMemberRequest) :=
  [(.valid 3, 1, { userID := 5, isPrimary := true }),
   (.valid 3, 2, { userID := 5, isPrimary := true })]

/-- Witness for the primary invariant, at the concrete two-call trace. -/
theorem c9_witness :
    primaryInv stTwoOrgs ∧ primaryInv (runAddMembers callsTwoPrimary stTwoOrgs) := by
  have base : primaryInv stTwoOrgs := by
    intro d u
    simp [primFilter, stTwoOrgs]
  exact ⟨base, c9_primary_invariant callsTwoPrimary stTwoOrgs base⟩

/-- Folding the minimum-by-createdAt step from a some accumulator yields an
element of the accumulator-or-list that is no younger than the accumulator
and than every list element. -/
theorem oldestFirst_go (xs : List TenantUserRow) :
    ∀ a m : TenantUserRow,
      xs.foldl (fun acc r =>
        match acc with
        | none => some r
        | some a => if r.createdAt < a.createdAt then some r else some a)
        (some a) = some m →
      (m = a ∨ m ∈ xs) ∧ m.createdAt ≤ a.createdAt ∧
        ∀ x ∈ xs, m.createdAt ≤ x.createdAt := by
  induction xs with
  | nil =>
      intro a m h
      simp only [List.foldl_nil, Option.some.injEq] at h
      subst h
      exact ⟨Or.inl rfl, le_refl _, by simp⟩
  | cons x xs ih =>
      intro a m h
      rw [List.foldl_cons] at h
      dsimp only [] at h
      by_cases hlt : x.createdAt < a.createdAt
      · rw [if_pos hlt] at h
        obtain ⟨hm, hle, hall⟩ := ih x m h
        refine ⟨?_, hle.trans (le_of_lt hlt), ?_⟩
        · rcases hm with rfl | hm
          · exact Or.inr (List.mem_cons_self _ _)
          · exact Or.inr (List.mem_cons_of_mem _ hm)
        · intro y hy
          rcases List.mem_cons.mp hy with rfl | hy
          · exact hle
          · exact hall y hy
      · rw [if_neg hlt] at h
        obtain ⟨hm, hle, hall⟩ := ih a m h
        refine ⟨?_, hle, ?_⟩
        · rcases hm with rfl | hm
          · exact Or.inl rfl
          · exact Or.inr (List.mem_cons_of_mem _ hm)
        · intro y hy
          rcases List.mem_cons.mp hy with rfl | hy
          · exact hle.trans (le_of_not_lt hlt)
          · exact hall y hy

/-- The row selected by the ascending created-at First query belongs to the
list and is no younger than every list element. -/
theorem oldestFirst_spec (l : List TenantUserRow) (m : TenantUserRow)
    (h : oldestFirst l = some m) :
    m ∈ l ∧ ∀ x ∈ l, m.createdAt ≤ x.createdAt := by
  cases l with
  | nil => simp [oldestFirst] at h
  | cons x xs =>
      unfold oldestFirst at h
      rw [List.foldl_cons] at h
      dsimp only [] at h
      obtain ⟨hm, hle, hall⟩ := oldestFirst_go xs x m h
      constructor
      · rcases hm with rfl | hm
        · exact List.mem_cons_self _ _
        · exact List.mem_cons_of_mem _ hm
      · intro y hy
        rcases List.mem_cons.mp hy with rfl | hy
        · exact hle
        · exact hall y hy

/-- A non-empty list always yields a row from the ascending created-at
First query. -/
theorem oldestFirst_ne_nil (l : List TenantUserRow) (h : l ≠ []) :
    ∃ m, oldestFirst l = some m := by
  cases l with
  | nil => exact absurd rfl h
  | cons x xs =>
      unfold oldestFirst
      rw [List.foldl_cons]
      dsimp only []
      clear h
      induction xs generalizing x with
      | nil => exact ⟨x, rfl⟩
      | cons y ys ih =>
          rw [List.foldl_cons]
          dsimp only []
          by_cases hlt : y.createdAt < x.createdAt
          · rw [if_pos hlt]
            exact ih y
          · rw [if_neg hlt]
            exact ih x

/-- The active rows of a user that remain once the row with a given id is
excluded: exactly the remaining-membership set RemoveMember scans for the
default reassignment. -/
def remainingActive (uid rid : Nat) (l : List TenantUserRow) : List TenantUserRow :=
  l.filter (fun r =>
    (r.userID == uid && r.deletedAt.isNone && r.status == "active") && !(r.id == rid))

/-- Filtering the active rows of a user after soft-deleting the row with a
given id selects exactly the remaining active rows of the original list. -/
theorem filter_active_softDelete (uid rid now : Nat) (l : List TenantUserRow) :
    (l.map (fun r : TenantUserRow =>
      if r.id == rid then { r with deletedAt := some now } else r)).filter
      (fun r => r.userID == uid && r.deletedAt.isNone && r.status == "active")
    = remainingActive uid rid l := by
  induction l with
  | nil => rfl
  | cons x xs ih =>
      unfold remainingActive at ih ⊢
      simp only [List.map_cons, List.filter_cons]
      by_cases hid : (x.id == rid) = true
      · rw [if_pos hid]
        rw [if_neg (by simp)]
        rw [if_neg (by simp [hid])]
        exact ih
      · rw [if_neg hid]
        by_cases hact : (x.userID == uid && x.deletedAt.isNone && x.status == "active") = true
        · rw [if_pos hact]
          rw [if_pos (by simp [hact, hid])]
          rw [ih]
        · rw [if_neg hact]
          rw [if_neg (by simp [hact])]
          exact ih

/-- C4: removing a membership whose default flag is set succeeds, and when
active memberships of the user remain (in any tenant), some remaining row
with the least creation time is promoted to default; when none remain, the
call still succeeds and the user is left without any active membership, so
without any active default. -/
theorem c4_remove_default_reassigns (ctx : Ctx) (tid uid : Nat) (s : St)
    (t : TenantRow) (r0 : TenantUserRow)
    (hctx : ctx.isPlatformDomain = true)
    (ht : s.tenants.find? (fun x => x.id == tid) = some t)
    (hr : s.tenantUsers.find? (fun x =>
      x.tenantID == t.id && x.userID == uid && x.deletedAt.isNone) = some r0)
    (hdef : r0.isDefault = true) :
    (removeMember ctx tid uid s).1 = .ok () ∧
    (remainingActive uid r0.id s.tenantUsers = [] →
      ∀ row ∈ (removeMember ctx tid uid s).2.tenantUsers,
        ¬(row.userID = uid ∧ row.deletedAt = none ∧ row.status = "active")) ∧
    (remainingActive uid r0.id s.tenantUsers ≠ [] →
      ∃ m ∈ remainingActive uid r0.id s.tenantUsers,
        (∀ x ∈ remainingActive uid r0.id s.tenantUsers, m.createdAt ≤ x.createdAt) ∧
        ∃ row ∈ (removeMember ctx tid uid s).2.tenantUsers,
          row.id = m.id ∧ row.isDefault = true) := by
  unfold removeMember
  simp only [requirePlatformDomain, hctx, if_true]
  rw [ht]
  dsimp only []
  rw [hr]
  dsimp only []
  rw [if_pos hdef]
  rw [filter_active_softDelete uid r0.id s.fresh s.tenantUsers]
  cases halt : oldestFirst (remainingActive uid r0.id s.tenantUsers) with
  | none =>
      dsimp only []
      refine ⟨rfl, ?_, ?_⟩
      · intro hnil row hrow hbad
        obtain ⟨hbu, hbd, hbs⟩ := hbad
        rw [List.mem_map] at hrow
        obtain ⟨x, hx, hxe⟩ := hrow
        by_cases hxid : (x.id == r0.id) = true
        · rw [if_pos hxid] at hxe
          rw [← hxe] at hbd
          cases hbd
        · rw [if_neg hxid] at hxe
          subst hxe
          have : x ∈ remainingActive uid r0.id s.tenantUsers := by
            unfold remainingActive
            rw [List.mem_filter]
            exact ⟨hx, by simp [hbu, hbd, hbs, hxid]⟩
          rw [hnil] at this
          cases this
      · intro hne
        obtain ⟨m, hm⟩ := oldestFirst_ne_nil _ hne
        rw [halt] at hm
        cases hm
  | some alt =>
      dsimp only []
      refine ⟨rfl, ?_, ?_⟩
      · intro hnil
        rw [hnil] at halt
        exact absurd halt (by simp [oldestFirst])
      · intro _
        obtain ⟨hmem, hmin⟩ := oldestFirst_spec _ _ halt
        refine ⟨alt, hmem, hmin, ?_⟩
        have hfl : alt ∈ s.tenantUsers ∧
            ((alt.userID == uid && alt.deletedAt.isNone && alt.status == "active")
              && !(alt.id == r0.id)) = true := by
          have := hmem
          unfold remainingActive at this
          exact List.mem_filter.mp this
        obtain ⟨haltmem, haltpred⟩ := hfl
        have hne0 : (alt.id == r0.id) = false := by
          rcases Bool.and_eq_true .. |>.mp haltpred with ⟨_, hnp⟩
          simpa using hnp
        have halt1 : alt ∈ s.tenantUsers.map (fun r : TenantUserRow =>
            if r.id == r0.id then { r with deletedAt := some s.fresh } else r) := by
          rw [List.mem_map]
          exact ⟨alt, haltmem, by rw [hne0]; rfl⟩
        refine ⟨{ alt with isDefault := true }, ?_, rfl, rfl⟩
        rw [List.mem_map]
        refine ⟨alt, halt1, ?_⟩
        rw [if_pos (by simp)]

/-- Default membership of user 10 in tenant A, the older row. -/
def row1Def : TenantUserRow :=
  { id := 70, tenantID := 1, userID := 10, role := "member", isDefault := true
    status := "active", createdAt := 5, deletedAt := none }

/-- Non-default membership of user 10 in tenant B, the younger row. -/
def row2Alt : TenantUserRow :=
  { id := 71, tenantID := 2, userID := 10, role := "member", isDefault := false
    status := "active", createdAt := 7, deletedAt := none }

/-- State where user 10 belongs to both tenants with tenant A as default. -/
def stTwoMem : St := { stAB with tenantUsers := [row1Def, row2Alt] }

/-- Witness for the default-reassignment theorem: removing the default
membership in tenant A, with the tenant-B membership remaining. -/
theorem c4_witness :
    (removeMember ctxPlat 1 10 stTwoMem).1 = .ok () ∧
    (remainingActive 10 row1Def.id stTwoMem.tenantUsers = [] →
      ∀ row ∈ (removeMember ctxPlat 1 10 stTwoMem).2.tenantUsers,
        ¬(row.userID = 10 ∧ row.deletedAt = none ∧ row.status = "active")) ∧
    (remainingActive 10 row1Def.id stTwoMem.tenantUsers ≠ [] →
      ∃ m ∈ remainingActive 10 row1Def.id stTwoMem.tenantUsers,
        (∀ x ∈ remainingActive 10 row1Def.id stTwoMem.tenantUsers,
          m.createdAt ≤ x.createdAt) ∧
        ∃ row ∈ (removeMember ctxPlat 1 10 stTwoMem).2.tenantUsers,
          row.id = m.id ∧ row.isDefault = true) :=
  c4_remove_default_reassigns ctxPlat 1 10 stTwoMem tenantA row1Def rfl rfl rfl rfl

/-- String prefix is reflexive. -/
theorem hasPathPrefix_refl (p : String) : hasPathPrefix p p = true := by
  unfold hasPathPrefix
  rw [List.isPrefixOf_iff_prefix]

/-- A string prefix survives extending the larger string on the right. -/
theorem hasPathPrefix_extend (p q r : String) (h : hasPathPrefix q p = true) :
    hasPathPrefix (q ++ r) p = true := by
  unfold hasPathPrefix at h ⊢
  rw [List.isPrefixOf_iff_prefix] at h ⊢
  rw [String.data_append]
  exact h.trans (List.prefix_append _ _)

/-- In a path-consistent state with distinct node ids, every node of the
subtree of a root node lives in the root domain and its materialized path
extends the root path. -/
theorem inSubtree_path (s : OSt) (root : OrgRow) (o : Nat)
    (hids : (s.orgs.map (fun n => n.id)).Nodup)
    (hpc : pathConsistent s)
    (hr : root ∈ s.orgs) (hid : root.id = o) :
    ∀ nid, InSubtree s o nid →
      ∃ n ∈ s.orgs, n.id = nid ∧ n.domainID = root.domainID ∧
        hasPathPrefix n.path root.path = true := by
  intro nid h
  induction h with
  | base => exact ⟨root, hr, hid, rfl, hasPathPrefix_refl _⟩
  | step hc hp hsub ih =>
      rename_i c p
      obtain ⟨np, hnpm, hnpid, hnpdom, hnppre⟩ := ih
      obtain ⟨pr, hprm, hprid, hprdom, hpath⟩ := hpc c hc p hp
      have hinj := List.inj_on_of_nodup_map hids
      have hpe : pr = np := hinj hprm hnpm (by rw [hprid, hnpid])
      subst hpe
      refine ⟨c, hc, rfl, hprdom.symm.trans hnpdom, ?_⟩
      rw [hpath]
      exact hasPathPrefix_extend _ _ _ (hasPathPrefix_extend _ _ _ hnppre)

/-- Membership in the deduplicating accumulator pass: a user id appears in
the output exactly when it is not in the seen set and some row carries
it. -/
theorem uniqueUserIDsAux_mem (l : List OrgMemberRow) :
    ∀ (seen : List Nat) (u : Nat),
      u ∈ uniqueUserIDsAux seen l ↔ (u ∉ seen ∧ ∃ m ∈ l, m.userID = u) := by
  induction l with
  | nil =>
      intro seen u
      simp [uniqueUserIDsAux]
  | cons m rest ih =>
      intro seen u
      unfold uniqueUserIDsAux
      by_cases hs : seen.contains m.userID = true
      · rw [if_pos hs]
        rw [ih seen u]
        rw [List.elem_iff] at hs
        constructor
        · rintro ⟨hu, mm, hmm, hmu⟩
          exact ⟨hu, mm, List.mem_cons_of_mem _ hmm, hmu⟩
        · rintro ⟨hu, mm, hmm, hmu⟩
          rcases List.mem_cons.mp hmm with rfl | hmm
          · exact absurd (hmu ▸ hs) hu
          · exact ⟨hu, mm, hmm, hmu⟩
      · rw [if_neg hs]
        rw [List.mem_cons, ih (m.userID :: seen) u]
        rw [List.elem_iff] at hs
        constructor
        · rintro (rfl | ⟨hu, mm, hmm, hmu⟩)
          · exact ⟨hs, m, List.mem_cons_self _ _, rfl⟩
          · rw [List.mem_cons] at hu
            push_neg at hu
            exact ⟨hu.2, mm, List.mem_cons_of_mem _ hmm, hmu⟩
        · rintro ⟨hu, mm, hmm, hmu⟩
          by_cases heq : u = m.userID
          · exact Or.inl heq
          · right
            rcases List.mem_cons.mp hmm with rfl | hmm
            · exact absurd hmu.symm heq
            · refine ⟨?_, mm, hmm, hmu⟩
              rw [List.mem_cons]
              push_neg
              exact ⟨heq, hu⟩

/-- Membership in uniqueUserIDs is exactly membership among the rows. -/
theorem uniqueUserIDs_mem (l : List OrgMemberRow) (u : Nat) :
    u ∈ uniqueUserIDs l ↔ ∃ m ∈ l, m.userID = u := by
  unfold uniqueUserIDs
  rw [uniqueUserIDsAux_mem]
  simp

/-- C3 amended: with distinct node ids, ListSubtreeUserIDs fails with
OrganizationNotFound exactly when the node is absent from the domain; when
the node exists, the call returns the deduplicated user ids of the members
of the in-domain nodes whose path has the root path as a raw string prefix,
and (under path consistency) that set includes every member of the root
node and of each of its descendants. -/
theorem c3_subtree_userids (s : OSt) (d o : Nat)
    (hids : (s.orgs.map (fun n => n.id)).Nodup) :
    ((listSubtreeUserIDs d o s = .error .organizationNotFound) ↔
      ¬∃ n ∈ s.orgs, n.id = o ∧ n.domainID = d) ∧
    (∀ root, root ∈ s.orgs → root.id = o → root.domainID = d →
      ∃ ids, listSubtreeUserIDs d o s = .ok ids ∧
        (∀ u, u ∈ ids ↔ ∃ m ∈ s.members, m.domainID = d ∧ m.userID = u ∧
          ∃ n ∈ s.orgs, n.id = m.organizationID ∧ n.domainID = d ∧
            hasPathPrefix n.path root.path = true) ∧
        (pathConsistent s → ∀ nid, InSubtree s o nid →
          ∀ m ∈ s.members, m.domainID = d → m.organizationID = nid →
            m.userID ∈ ids)) := by
  have hmain : ∀ root, root ∈ s.orgs → root.id = o → root.domainID = d →
      ∃ ids, listSubtreeUserIDs d o s = .ok ids ∧
        (∀ u, u ∈ ids ↔ ∃ m ∈ s.members, m.domainID = d ∧ m.userID = u ∧
          ∃ n ∈ s.orgs, n.id = m.organizationID ∧ n.domainID = d ∧
            hasPathPrefix n.path root.path = true) ∧
        (pathConsistent s → ∀ nid, InSubtree s o nid →
          ∀ m ∈ s.members, m.domainID = d → m.organizationID = nid →
            m.userID ∈ ids) := by
    intro root hrm hrid hrd
    unfold listSubtreeUserIDs
    rw [onlyOrg_ok s d o root hids hrm hrid hrd]
    dsimp only []
    have hrootnode : root ∈ s.orgs.filter (fun n =>
        n.domainID == d && hasPathPrefix n.path root.path) :=
      List.mem_filter.mpr ⟨hrm, by simp [hrd, hasPathPrefix_refl]⟩
    rw [if_neg (by
      intro he
      rw [List.isEmpty_eq_true] at he
      rw [he] at hrootnode
      cases hrootnode)]
    refine ⟨_, rfl, ?_, ?_⟩
    · intro u
      rw [uniqueUserIDs_mem]
      constructor
      · rintro ⟨m, hmm, hmu⟩
        rw [List.mem_filter] at hmm
        obtain ⟨hms, hmf⟩ := hmm
        simp only [Bool.and_eq_true, beq_iff_eq] at hmf
        obtain ⟨hmd, hmc⟩ := hmf
        rw [List.elem_iff, List.mem_map] at hmc
        obtain ⟨n, hnn, hni⟩ := hmc
        rw [List.mem_filter] at hnn
        obtain ⟨hns, hnf⟩ := hnn
        simp only [Bool.and_eq_true, beq_iff_eq] at hnf
        exact ⟨m, hms, hmd, hmu, n, hns, hni, hnf.1, hnf.2⟩
      · rintro ⟨m, hms, hmd, hmu, n, hns, hni, hnd, hnp⟩
        refine ⟨m, ?_, hmu⟩
        rw [List.mem_filter]
        refine ⟨hms, ?_⟩
        simp only [Bool.and_eq_true, beq_iff_eq]
        refine ⟨hmd, ?_⟩
        rw [List.elem_iff, List.mem_map]
        refine ⟨n, ?_, hni⟩
        rw [List.mem_filter]
        exact ⟨hns, by simp [hnd, hnp]⟩
    · intro hpc nid hsub m hms hmd hmo
      obtain ⟨n, hns, hni, hnd, hnp⟩ := inSubtree_path s root o hids hpc hrm hrid nid hsub
      rw [uniqueUserIDs_mem]
      refine ⟨m, ?_, rfl⟩
      rw [List.mem_filter]
      refine ⟨hms, ?_⟩
      simp only [Bool.and_eq_true, beq_iff_eq]
      refine ⟨hmd, ?_⟩
      rw [List.elem_iff, List.mem_map]
      refine ⟨n, ?_, by rw [hni, hmo]⟩
      rw [List.mem_filter]
      exact ⟨hns, by simp [hrd ▸ hnd, hnp]⟩
  constructor
  · constructor
    · intro herr
      intro hex
      obtain ⟨root, hrm, hrid, hrd⟩ := hex
      obtain ⟨ids, hok, _, _⟩ := hmain root hrm hrid hrd
      rw [hok] at herr
      cases herr
    · intro hnone
      unfold listSubtreeUserIDs
      rw [onlyOrg_err s d o (by
        intro n hn hcon
        exact hnone ⟨n, hn, hcon⟩)]
  · exact hmain

/-- Root organization "company". -/
def orgCompany : OrgRow :=
  { id := 1, domainID := 7, parentID := none, code := "company", name := "Co"
    path := "company" }

/-- Child organization "engineering" under "company". -/
def orgEng : OrgRow :=
  { id := 2, domainID := 7, parentID := some 1, code := "engineering", name := "Eng"
    path := "company/engineering" }

/-- A member of the "engineering" node. -/
def memEng : OrgMemberRow :=
  { id := 1, domainID := 7, organizationID := 2, userID := 42, isPrimary := false }

/-- Two-level organization tree state with a member on the leaf. -/
def stOrgTree : OSt := { orgs := [orgCompany, orgEng], members := [memEng], fresh := 10 }

/-- Witness for the subtree theorem: the company/engineering tree with a
member on the child node, queried at the root. -/
theorem c3_witness :
    ((listSubtreeUserIDs 7 1 stOrgTree = .error .organizationNotFound) ↔
      ¬∃ n ∈ stOrgTree.orgs, n.id = 1 ∧ n.domainID = 7) ∧
    (∀ root, root ∈ stOrgTree.orgs → root.id = 1 → root.domainID = 7 →
      ∃ ids, listSubtreeUserIDs 7 1 stOrgTree = .ok ids ∧
        (∀ u, u ∈ ids ↔ ∃ m ∈ stOrgTree.members, m.domainID = 7 ∧ m.userID = u ∧
          ∃ n ∈ stOrgTree.orgs, n.id = m.organizationID ∧ n.domainID = 7 ∧
            hasPathPrefix n.path root.path = true) ∧
        (pathConsistent stOrgTree → ∀ nid, InSubtree stOrgTree 1 nid →
          ∀ m ∈ stOrgTree.members, m.domainID = 7 → m.organizationID = nid →
            m.userID ∈ ids)) :=
  c3_subtree_userids stOrgTree 7 1 (by decide)

end Plugins
